import Mathlib

/-!
Verification development for the MoodBoard Maker application (`src/app.py`).

The shallow embedding below translates the data-access and logic layer of
the application into Lean: the credential store (registration / login), the
image file store (path generation), the image filter pipeline, the image
metadata repository (gallery listing / deletion), the board repository
(upsert-keyed saving), and the canvas layout model (serialize / deserialize
of placed images).  GUI widget wiring is presentation glue and is not part
of any claim; stateful fields of the Tk pages are modelled as explicit
state records, MongoDB collections as lists of documents in natural
(insertion) order, the filesystem as a lookup function, and Python floats
as exact rationals (ℚ).  External-library calls (bcrypt, PIL) are modelled
at the granularity of their documented behaviour, as noted at each
definition.
-/

/-! ### Python string helpers -/

/-- Python `str.strip()`: drop whitespace from both ends. -/
def pystrip (s : String) : String :=
  String.mk ((((s.data.dropWhile Char.isWhitespace).reverse.dropWhile
    Char.isWhitespace)).reverse)

/-! ### Credential store (bcrypt model, `hash_password` / `check_password`) -/

/-- Model of a bcrypt hash as produced by `bcrypt.hashpw(password, gensalt())`:
an opaque value determined by the salt and the hashed password.  `bcrypt.checkpw`
re-hashes the candidate password with the stored salt and compares, so (ignoring
hash collisions) verification succeeds exactly when the passwords coincide. -/
structure BHash where
  salt : Nat
  hashedOf : String
  deriving DecidableEq, Repr

/-- `hash_password` from `app.py`: `bcrypt.hashpw(plain.encode(), bcrypt.gensalt())`.
The fresh random salt is passed explicitly. -/
def hash_password (salt : Nat) (plain_text_password : String) : BHash :=
  ⟨salt, plain_text_password⟩

/-- `check_password` from `app.py`: `bcrypt.checkpw(plain.encode(), hashed)`. -/
def check_password (plain_text_password : String) (hashed : BHash) : Bool :=
  hashed.hashedOf == plain_text_password

/-- A document of the `users` collection:
`{"username": u, "password": hashed, "created_at": now}`. -/
structure UserDoc where
  username : String
  password : BHash
  created_at : Nat
  deriving DecidableEq, Repr

/-- `users_col.find_one({"username": u})`: first document in natural
(insertion) order whose `username` field equals `u`. -/
def users_find_one (users_col : List UserDoc) (u : String) : Option UserDoc :=
  users_col.find? (fun d => d.username == u)

/-- `users_col.insert_one(doc)`: appends in natural order. -/
def users_insert_one (users_col : List UserDoc) (doc : UserDoc) : List UserDoc :=
  users_col ++ [doc]

/-- Outcome of a register / login attempt: which message box the handler
showed (`messagebox.showwarning` / `showerror` / `showinfo`, with its title
and text), or a successful login (`controller.login(u)` with the logged-in
username). -/
inductive UiOutcome where
  | warning (title msg : String)
  | error (title msg : String)
  | info (title msg : String)
  | loggedIn (username : String)
  deriving DecidableEq, Repr

/-- `LoginPage.attempt_register` from `app.py`.  Reads the username field
stripped (`.strip()`, modelled by `pystrip`) and the raw password field;
the fresh bcrypt salt and the `datetime.utcnow()` value are explicit
parameters.  Returns the outcome shown to the user and the resulting
`users` collection. -/
def attempt_register (users_col : List UserDoc) (salt now : Nat)
    (username_field password_field : String) : UiOutcome × List UserDoc :=
  let u := pystrip username_field
  let p := password_field
  if u = "" ∨ p = "" then
    (.warning "Missing" "Provide username and password", users_col)
  else if (users_find_one users_col u).isSome then
    (.error "Exists" "Username already exists", users_col)
  else
    (.info "Registered" "Account created — please login.",
      users_insert_one users_col ⟨u, hash_password salt p, now⟩)

/-- `LoginPage.attempt_login` from `app.py`.  Looks the stripped username up;
a missing user shows `showerror("Not found", "No such user")`, a failing
`check_password` shows `showerror("Unauthorized", "Incorrect password")`, and
success calls `controller.login(u)`. -/
def attempt_login (users_col : List UserDoc)
    (username_field password_field : String) : UiOutcome :=
  let u := pystrip username_field
  let p := password_field
  if u = "" ∨ p = "" then
    .warning "Missing" "Provide username and password"
  else
    match users_find_one users_col u with
    | none => .error "Not found" "No such user"
    | some doc =>
        if check_password p doc.password then .loggedIn u
        else .error "Unauthorized" "Incorrect password"

/-- Whether a login attempt failed (showed a warning or error box). -/
def UiOutcome.isFailure : UiOutcome → Bool
  | .warning _ _ => true
  | .error _ _ => true
  | .info _ _ => false
  | .loggedIn _ => false

/-! ### PIL model: images, filters, thumbnail geometry -/

/-- Model of a PIL image as the term describing how it was produced from an
uploaded original.  `Image.copy()` yields a pixel-identical image and is the
identity in this pure embedding; each filter call produces a new value.
`grayRGBA` is `convert("L").convert("RGBA")` (grayscale re-expanded to the
original RGBA channel layout), the remaining constructors are
`ImageFilter.GaussianBlur(radius)`, `ImageEnhance.Brightness(...).enhance(f)`
and `ImageEnhance.Contrast(...).enhance(f)`. -/
inductive PILImage where
  | src (id : Nat)
  | grayRGBA (i : PILImage)
  | gaussianBlur (radius : ℚ) (i : PILImage)
  | brightness (factor : ℚ) (i : PILImage)
  | contrast (factor : ℚ) (i : PILImage)
  deriving DecidableEq, Repr

/-- Editor state relevant to filtering: the unmodified original upload and the
working image shown in the preview (`controller.current_original_image` /
`controller.current_work_image`). -/
structure EditorImages where
  current_original_image : Option PILImage
  current_work_image : Option PILImage
  deriving DecidableEq, Repr

/-- `EditorPage.apply_filters` from `app.py`, the filter pipeline applied to a
base image: starting from `base.copy()`, grayscale if the checkbox is set,
Gaussian blur if the radius exceeds `0.01`, brightness if the factor differs
from `1.0` by more than `1e-3`, contrast under the same rule.  Python floats
are modelled as exact rationals. -/
def apply_filters_pipeline (base : PILImage) (grayscale : Bool)
    (blur_val bright contrast : ℚ) : PILImage :=
  let img := base
  let img := if grayscale then PILImage.grayRGBA img else img
  let img := if blur_val > 1/100 then PILImage.gaussianBlur blur_val img else img
  let img := if |bright - 1| > 1/1000 then PILImage.brightness bright img else img
  let img := if |contrast - 1| > 1/1000 then PILImage.contrast contrast img else img
  img

/-- The `EditorPage.apply_filters` handler as a state transformer: reads
`controller.current_original_image`; if none is loaded it returns with no
change, otherwise it stores the freshly filtered original into
`controller.current_work_image`. -/
def apply_filters (st : EditorImages) (grayscale : Bool)
    (blur_val bright contrast : ℚ) : EditorImages :=
  match st.current_original_image with
  | none => st
  | some base =>
      { st with
        current_work_image := some (apply_filters_pipeline base grayscale blur_val bright contrast) }

/-- Stage (1) of §4.3 of the spec: grayscale conversion if enabled,
re-expanded to the original color-channel layout. -/
def grayscaleStage (enabled : Bool) (i : PILImage) : PILImage :=
  if enabled then PILImage.grayRGBA i else i

/-- Stage (2) of §4.3 of the spec: Gaussian blur with the given radius if the
radius exceeds the negligible epsilon `0.01`. -/
def blurStage (radius : ℚ) (i : PILImage) : PILImage :=
  if radius > 1/100 then PILImage.gaussianBlur radius i else i

/-- Stage (3) of §4.3 of the spec: brightness scaling if the factor deviates
from `1.0` by more than `1e-3`. -/
def brightnessStage (factor : ℚ) (i : PILImage) : PILImage :=
  if |factor - 1| > 1/1000 then PILImage.brightness factor i else i

/-- Stage (4) of §4.3 of the spec: contrast scaling under the same epsilon
rule as brightness. -/
def contrastStage (factor : ℚ) (i : PILImage) : PILImage :=
  if |factor - 1| > 1/1000 then PILImage.contrast factor i else i

/-- The filter pipeline as §4.3 of the spec words it: the four stages in the
fixed order grayscale, blur, brightness, contrast, applied to the unmodified
original. -/
def applyFiltersSpec (base : PILImage) (grayscale : Bool)
    (blur_val bright contrast : ℚ) : PILImage :=
  contrastStage contrast (brightnessStage bright (blurStage blur_val (grayscaleStage grayscale base)))

/-- `min(floor(number), ceil(number), key=key)` followed by `max(..., 1)`:
the helper `round_aspect` inside PIL's `Image.thumbnail`.  Python's `min`
returns its first argument on ties. -/
def round_aspect (number : ℚ) (key : Int → ℚ) : Int :=
  max (if key ⌊number⌋ ≤ key ⌈number⌉ then ⌊number⌋ else ⌈number⌉) 1

/-- The target-size computation of PIL's `Image.thumbnail((x, y))` on an
image of size `W × H` (Pillow's aspect-preserving bounding-box fit, which
never upscales): if the image already fits, its size is unchanged; otherwise
the constrained axis is kept and the other is rounded to best match the
aspect ratio. -/
def thumb_size (W H : Nat) (x y : Int) : Nat × Nat :=
  if (W : Int) ≤ x ∧ (H : Int) ≤ y then (W, H)
  else
    let aspect : ℚ := (W : ℚ) / (H : ℚ)
    if aspect ≤ (x : ℚ) / (y : ℚ) then
      ((round_aspect ((y : ℚ) * aspect) fun n => |aspect - (n : ℚ) / (y : ℚ)|).toNat,
        y.toNat)
    else
      (x.toNat,
        (round_aspect ((x : ℚ) / aspect) fun n =>
          if n = 0 then 0 else |aspect - (x : ℚ) / (n : ℚ)|).toNat)

/-- The filesystem as seen through `os.path.exists` and `PIL.Image.open`: a
path maps to the pixel dimensions of the image stored there, or to `none`
when the file is missing or cannot be opened as an image. -/
def ImageFS : Type := String → Option (Nat × Nat)

/-- `Image.open(path)` followed by `.thumbnail((w, h))`, returning the
resulting dimensions: `none` when the path is missing/unopenable or the
requested box is degenerate (PIL raises on a non-positive resize target, and
every caller catches and skips). -/
def open_thumb (fs : ImageFS) (path : String) (w h : Int) : Option (Nat × Nat) :=
  match fs path with
  | none => none
  | some (W, H) =>
      if W = 0 ∨ H = 0 ∨ w ≤ 0 ∨ h ≤ 0 then none
      else some (thumb_size W H w h)

/-! ### Canvas layout model (`MoodBoardPage` board items) -/

/-- A stored layout entry of a board document, as written by
`MoodBoardPage.save_board`: `{"path": ..., "x": float, "y": float,
"w": int, "h": int}`. -/
structure PlacedImage where
  path : String
  x : ℚ
  y : ℚ
  w : Int
  h : Int
  deriving DecidableEq, Repr

/-- An in-memory canvas entry of `MoodBoardPage.board_items`.  The source
dict also holds the Tk canvas item id and the `PhotoImage` handle, which are
presentation-only and carry no persisted information; the canvas coordinates
of the item mirror the `x`/`y` fields (every move writes both). -/
structure BoardItem where
  path : String
  x : ℚ
  y : ℚ
  w : Int
  h : Int
  deriving DecidableEq, Repr

/-- The layout list built by `MoodBoardPage.save_board` from the in-memory
canvas entries: `{"path": meta["path"], "x": float(x), "y": float(y),
"w": int(meta["w"]), "h": int(meta["h"])}` for each entry in order. -/
def serialize (board_items : List BoardItem) : List PlacedImage :=
  board_items.map fun meta => ⟨meta.path, meta.x, meta.y, meta.w, meta.h⟩

/-- The canvas-population loop of `MoodBoardPage.load_board`: each stored
entry is skipped when its path is falsy, the file no longer exists, or
opening fails; otherwise the image is opened, thumbnailed into the stored
`(w, h)` box, placed at the stored coordinates, and recorded with the
thumbnail's actual dimensions. -/
def deserialize (fs : ImageFS) (layout : List PlacedImage) : List BoardItem :=
  layout.filterMap fun item =>
    if item.path = "" then none
    else
      match open_thumb fs item.path item.w item.h with
      | none => none
      | some (w, h) => some ⟨item.path, item.x, item.y, (w : Int), (h : Int)⟩

/-! ### Board repository and `MoodBoardPage` state -/

/-- A document of the `boards` collection: `{"_id": ..., "username": ...,
"board_name": ..., "layout": [...], "saved_at": ...}`.  Mongo object ids are
modelled as naturals. -/
structure BoardDoc where
  _id : Nat
  username : String
  board_name : String
  layout : List PlacedImage
  saved_at : Nat
  deriving DecidableEq, Repr

/-- The upsert key predicate of `save_board`:
`{"username": username, "board_name": current_board}`. -/
def board_key (username board_name : String) (d : BoardDoc) : Bool :=
  d.username == username && d.board_name == board_name

/-- `boards_col.update_one(filter, {"$set": {...}}, upsert=True)`: rewrite the
first document matching the `(username, board_name)` filter in natural order,
setting the layout and timestamp (the `$set` also rewrites the key fields with
their filter values) and keeping its `_id`; when no document matches, insert a
new document with a fresh `_id`. -/
def boards_update_one_upsert (boards_col : List BoardDoc) (username board_name : String)
    (layout : List PlacedImage) (now fresh_id : Nat) : List BoardDoc :=
  match boards_col with
  | [] => [⟨fresh_id, username, board_name, layout, now⟩]
  | d :: rest =>
      if board_key username board_name d then
        ⟨d._id, username, board_name, layout, now⟩ :: rest
      else
        d :: boards_update_one_upsert rest username board_name layout now fresh_id

/-- `boards_col.find_one({"_id": ObjectId(board_id)})`. -/
def boards_find_by_id (boards_col : List BoardDoc) (board_id : Nat) : Option BoardDoc :=
  boards_col.find? (fun d => d._id == board_id)

/-- The number of board documents stored under one `(owner, name)` upsert
key. -/
def board_count (boards_col : List BoardDoc) (username board_name : String) : Nat :=
  boards_col.countP (board_key username board_name)

/-- `MoodBoardPage` state relevant to the board claims: the name of the board
the canvas is bound to and the in-memory canvas entries. -/
structure MoodBoardState where
  current_board : Option String
  board_items : List BoardItem
  deriving DecidableEq, Repr

/-- `MoodBoardPage.clear_canvas`: deletes every canvas item and empties
`board_items` (the Tk image handles and selection are presentation state). -/
def clear_canvas (st : MoodBoardState) : MoodBoardState :=
  { st with board_items := [] }

/-- `MoodBoardPage.save_board` from `app.py`: warns when no board is bound,
errors when nobody is logged in, and otherwise upserts the serialized canvas
layout with a fresh timestamp under the `(username, current_board)` key.
Returns the outcome and the new `boards` collection. -/
def save_board (boards_col : List BoardDoc) (current_user : Option String)
    (st : MoodBoardState) (now fresh_id : Nat) : UiOutcome × List BoardDoc :=
  match st.current_board with
  | none => (.warning "No Board" "Select or create a board first.", boards_col)
  | some name =>
      match current_user with
      | none => (.error "Error" "Login first", boards_col)
      | some username =>
          (.info "Saved" "Board saved.",
            boards_update_one_upsert boards_col username name (serialize st.board_items) now fresh_id)

/-- `MoodBoardPage.load_board` from `app.py`: looks the board up by id; when
missing it shows an error and leaves the page state untouched; otherwise it
binds `current_board`, clears the canvas, and repopulates it from the stored
layout (skipping entries whose file is gone or unopenable). -/
def load_board (fs : ImageFS) (boards_col : List BoardDoc) (st : MoodBoardState)
    (board_id : Nat) : MoodBoardState :=
  match boards_find_by_id boards_col board_id with
  | none => st
  | some doc =>
      let st := { st with current_board := some doc.board_name }
      let st := clear_canvas st
      { st with board_items := st.board_items ++ deserialize fs doc.layout }

/-! ### Image metadata repository and gallery -/

/-- The filter parameters recorded with a saved image. -/
structure FilterParams where
  grayscale : Bool
  blur : ℚ
  brightness : ℚ
  contrast : ℚ
  deriving DecidableEq, Repr

/-- A document of the `images` collection, as written by
`EditorPage.save_edited`. -/
structure ImageDoc where
  username : String
  orig_filename : String
  saved_path : String
  filters : FilterParams
  saved_at : Nat
  deriving DecidableEq, Repr

/-- `images_col.find({"username": username}).sort("saved_at", -1)`: the
owner's documents, most recent first (merge sort is stable, matching Mongo's
deterministic sort). -/
def images_by_owner (images_col : List ImageDoc) (username : String) : List ImageDoc :=
  (images_col.filter (fun d => d.username == username)).mergeSort
    (fun a b => b.saved_at ≤ a.saved_at)

/-- The gallery tiles produced by `GalleryPage.reload`: the owner's documents
by recency, skipping any whose stored path is falsy, whose file no longer
exists, or whose file fails to open. -/
def gallery_list (images_col : List ImageDoc) (fs : ImageFS)
    (username : String) : List ImageDoc :=
  (images_by_owner images_col username).filter
    (fun d => !(d.saved_path == "") && (fs d.saved_path).isSome)

/-- `images_col.delete_one({"saved_path": path})`: removes the first document
with that stored path in natural order, if any. -/
def images_delete_one (images_col : List ImageDoc) (path : String) : List ImageDoc :=
  images_col.eraseP (fun d => d.saved_path == path)

/-- The `do_delete` closure of `GalleryPage.preview_image` (after the user
confirms): deletes the metadata record by stored path, then best-effort
removes the backing file — `os.remove` inside `try/except: pass`, so a failed
file removal (modelled by `remove_ok = false`) is swallowed and the record
removal stands.  Returns the new collection and filesystem. -/
def gallery_do_delete (images_col : List ImageDoc) (fs : ImageFS) (path : String)
    (remove_ok : Bool) : List ImageDoc × ImageFS :=
  (images_delete_one images_col path,
    if remove_ok then (fun q => if q == path then none else fs q) else fs)

/-! ### Image file store: `save_image_file` path generation -/

/-- Little-endian decimal digits of `n`, with explicit fuel so the recursion
is structural (`decDigitsAux n n` has enough fuel for every `n`). -/
def decDigitsAux : Nat → Nat → List Nat
  | 0, _ => []
  | _ + 1, 0 => []
  | fuel + 1, n + 1 => ((n + 1) % 10) :: decDigitsAux fuel ((n + 1) / 10)

/-- Little-endian decimal digits of `n` (empty for 0). -/
def decDigits (n : Nat) : List Nat := decDigitsAux n n

/-- Value of a little-endian decimal digit list. -/
def ofDigs : List Nat → Nat
  | [] => 0
  | d :: ds => d + 10 * ofDigs ds

/-- Little-endian digits of `n` zero-padded up to width `w`, as in the
`%0wd`-style zero padding every `strftime` directive performs. -/
def zfillDigits (w n : Nat) : List Nat :=
  decDigits n ++ List.replicate (w - (decDigits n).length) 0

/-- The ASCII character of a decimal digit. -/
def digitChar (d : Nat) : Char := Char.ofNat (48 + d)

/-- `n` printed in decimal, zero-padded to width `w` (big-endian). -/
def zeroPadded (w n : Nat) : List Char := (zfillDigits w n).reverse.map digitChar

/-- A `datetime.utcnow()` value, split into the fields `strftime` prints. -/
structure DateTimeUTC where
  year : Nat
  month : Nat
  day : Nat
  hour : Nat
  minute : Nat
  second : Nat
  microsecond : Nat
  deriving DecidableEq, Repr

/-- Field bounds guaranteed by `datetime` (stated loosely: each field fits in
the width its `strftime` directive prints, microseconds in six digits). -/
def DateTimeUTC.wellFormed (t : DateTimeUTC) : Prop :=
  t.year < 10000 ∧ t.month < 100 ∧ t.day < 100 ∧ t.hour < 100 ∧
    t.minute < 100 ∧ t.second < 100 ∧ t.microsecond < 1000000

instance (t : DateTimeUTC) : Decidable t.wellFormed := by
  unfold DateTimeUTC.wellFormed; infer_instance

/-- The characters of `t.strftime("%Y%m%dT%H%M%S%f")`. -/
def timestamp_chars (t : DateTimeUTC) : List Char :=
  zeroPadded 4 t.year ++ zeroPadded 2 t.month ++ zeroPadded 2 t.day ++ ['T'] ++
    zeroPadded 2 t.hour ++ zeroPadded 2 t.minute ++ zeroPadded 2 t.second ++
    zeroPadded 6 t.microsecond

/-- `datetime.utcnow().strftime("%Y%m%dT%H%M%S%f")`: the microsecond-precision
UTC timestamp used in stored file names. -/
def strftime_timestamp (t : DateTimeUTC) : String := String.mk (timestamp_chars t)

/-- `os.path.basename`: the part after the last path separator. -/
def os_path_basename (s : String) : String :=
  String.mk ((s.data.reverse.takeWhile (fun c => !(c == '/'))).reverse)

/-- The root part of Python `os.path.splitext` on a separator-free name: cut
at the last dot, except when every character before it is a dot (leading dots
belong to the root). -/
def splitext_root (s : String) : String :=
  match s.data.reverse.findIdx? (fun c => c == '.') with
  | none => s
  | some ridx =>
      let dotIdx := s.data.length - 1 - ridx
      if (s.data.take dotIdx).any (fun c => !(c == '.')) then
        String.mk (s.data.take dotIdx)
      else s

/-- The file name `f"{timestamp}_{base}.png"` generated by `save_image_file`
(the extension is always `.png`, the lossless encoding). -/
def save_image_out_name (t : DateTimeUTC) (orig_filename : String) : String :=
  strftime_timestamp t ++ "_" ++ splitext_root (os_path_basename orig_filename) ++ ".png"

/-- The stored path returned by `save_image_file`:
`os.path.join("uploads", username, out_name)` with `/` separators. -/
def save_image_file_path (t : DateTimeUTC) (username orig_filename : String) : String :=
  "uploads" ++ "/" ++ username ++ "/" ++ save_image_out_name t orig_filename

/-! ### Theorems -/

lemma string_data_append (s t : String) : (s ++ t).data = s.data ++ t.data := rfl

/-- C1: the claim that a failed login yields the same error whether the
username is absent or the password is wrong is FALSE in the code: with a
store holding only the user `alice`, logging in as the unknown `bob` shows
`("Not found", "No such user")` while logging in as `alice` with a wrong
password shows `("Unauthorized", "Incorrect password")` — both attempts fail,
but with different errors. -/
theorem c1_uniform_error_counterexample :
    (attempt_login [⟨"alice", hash_password 7 "pw", 0⟩] "bob" "x").isFailure = true ∧
    (attempt_login [⟨"alice", hash_password 7 "pw", 0⟩] "alice" "wrong").isFailure = true ∧
    attempt_login [⟨"alice", hash_password 7 "pw", 0⟩] "bob" "x" ≠
      attempt_login [⟨"alice", hash_password 7 "pw", 0⟩] "alice" "wrong" := by
  decide

/-- C1 (amended): a failing authentication attempt with non-empty username
and password returns the error `("Not found", "No such user")` when the
username has no record, and the distinct error
`("Unauthorized", "Incorrect password")` when the record exists but the
stored hash does not verify the password — the two failure errors differ,
leaking account existence. -/
theorem c1_uniform_error_amended (users_col : List UserDoc)
    (username_field password_field : String)
    (hu : pystrip username_field ≠ "") (hp : password_field ≠ "") :
    (users_find_one users_col (pystrip username_field) = none →
      attempt_login users_col username_field password_field =
        .error "Not found" "No such user") ∧
    (∀ doc, users_find_one users_col (pystrip username_field) = some doc →
      check_password password_field doc.password = false →
      attempt_login users_col username_field password_field =
        .error "Unauthorized" "Incorrect password") ∧
    UiOutcome.error "Not found" "No such user" ≠
      UiOutcome.error "Unauthorized" "Incorrect password" := by
  refine ⟨?_, ?_, by decide⟩
  · intro h
    simp [attempt_login, hu, hp, h]
  · intro doc hdoc hcp
    simp [attempt_login, hu, hp, hdoc, hcp]

/-- Witness for the amended C1 at a concrete input. -/
theorem c1_uniform_error_amended_witness :
    pystrip "bob" ≠ "" ∧ ("x" : String) ≠ "" ∧
    ((users_find_one [⟨"alice", hash_password 7 "pw", 0⟩] (pystrip "bob") = none →
      attempt_login [⟨"alice", hash_password 7 "pw", 0⟩] "bob" "x" =
        .error "Not found" "No such user") ∧
    (∀ doc, users_find_one [⟨"alice", hash_password 7 "pw", 0⟩] (pystrip "bob") = some doc →
      check_password "x" doc.password = false →
      attempt_login [⟨"alice", hash_password 7 "pw", 0⟩] "bob" "x" =
        .error "Unauthorized" "Incorrect password") ∧
    UiOutcome.error "Not found" "No such user" ≠
      UiOutcome.error "Unauthorized" "Incorrect password") :=
  ⟨by decide, by decide,
    c1_uniform_error_amended [⟨"alice", hash_password 7 "pw", 0⟩] "bob" "x"
      (by decide) (by decide)⟩

/-- C6: when a record for the (stripped) username already is absent and a
first registration succeeds, a second registration attempt for the same
username fails with the `("Exists", "Username already exists")` error and
leaves the user store — in particular the first user's stored hash — exactly
as the first registration left it. -/
theorem c6_register_twice (users_col : List UserDoc) (salt₁ salt₂ now₁ now₂ : Nat)
    (username_field p₁ p₂ : String)
    (hu : pystrip username_field ≠ "") (hp₁ : p₁ ≠ "") (hp₂ : p₂ ≠ "")
    (hfresh : users_find_one users_col (pystrip username_field) = none) :
    (attempt_register users_col salt₁ now₁ username_field p₁).1 =
      .info "Registered" "Account created — please login." ∧
    attempt_register (attempt_register users_col salt₁ now₁ username_field p₁).2
        salt₂ now₂ username_field p₂ =
      (.error "Exists" "Username already exists",
        (attempt_register users_col salt₁ now₁ username_field p₁).2) ∧
    users_find_one (attempt_register users_col salt₁ now₁ username_field p₁).2
        (pystrip username_field) =
      some ⟨pystrip username_field, hash_password salt₁ p₁, now₁⟩ := by
  have hstore : (attempt_register users_col salt₁ now₁ username_field p₁).2 =
      users_col ++ [⟨pystrip username_field, hash_password salt₁ p₁, now₁⟩] := by
    simp [attempt_register, hu, hp₁, hfresh, users_insert_one]
  have hfind₂ : users_find_one
      (users_col ++ [⟨pystrip username_field, hash_password salt₁ p₁, now₁⟩])
      (pystrip username_field) =
      some ⟨pystrip username_field, hash_password salt₁ p₁, now₁⟩ := by
    unfold users_find_one
    rw [List.find?_append]
    have hfresh' := hfresh
    unfold users_find_one at hfresh'
    rw [hfresh']
    simp
  refine ⟨?_, ?_, ?_⟩
  · simp [attempt_register, hu, hp₁, hfresh]
  · rw [hstore]
    simp [attempt_register, hu, hp₂, hfind₂]
  · rw [hstore]
    exact hfind₂

/-- Witness for C6 at a concrete input. -/
theorem c6_register_twice_witness :
    pystrip "alice" ≠ "" ∧ ("pw" : String) ≠ "" ∧ ("pw2" : String) ≠ "" ∧
    users_find_one [] (pystrip "alice") = none ∧
    ((attempt_register [] 1 3 "alice" "pw").1 =
      .info "Registered" "Account created — please login." ∧
    attempt_register (attempt_register [] 1 3 "alice" "pw").2 2 4 "alice" "pw2" =
      (.error "Exists" "Username already exists",
        (attempt_register [] 1 3 "alice" "pw").2) ∧
    users_find_one (attempt_register [] 1 3 "alice" "pw").2 (pystrip "alice") =
      some ⟨pystrip "alice", hash_password 1 "pw", 3⟩) :=
  ⟨by decide, by decide, by decide, by decide,
    c6_register_twice [] 1 2 3 4 "alice" "pw" "pw2" (by decide) (by decide)
      (by decide) (by decide)⟩

/-- C8: for non-empty (stripped) username and password, a login succeeds —
i.e. reaches `controller.login` — exactly when a user record for the stripped
username exists and its stored hash verifies the password; in particular it
never succeeds when no record exists. -/
theorem c8_authenticate_iff (users_col : List UserDoc)
    (username_field password_field : String)
    (hu : pystrip username_field ≠ "") (hp : password_field ≠ "") :
    (∀ v, attempt_login users_col username_field password_field = .loggedIn v ↔
      (v = pystrip username_field ∧
        ∃ doc, users_find_one users_col (pystrip username_field) = some doc ∧
          check_password password_field doc.password = true)) ∧
    (users_find_one users_col (pystrip username_field) = none →
      ∀ v, attempt_login users_col username_field password_field ≠ .loggedIn v) := by
  constructor
  · intro v
    constructor
    · intro h
      unfold attempt_login at h
      rw [if_neg (by simp [hu, hp])] at h
      cases hfind : users_find_one users_col (pystrip username_field) with
      | none => rw [hfind] at h; simp at h
      | some doc =>
          rw [hfind] at h
          by_cases hcp : check_password password_field doc.password = true
          · simp [hcp] at h
            exact ⟨h.symm, doc, rfl, hcp⟩
          · simp [hcp] at h
    · rintro ⟨hv, doc, hfind, hcp⟩
      subst hv
      simp [attempt_login, hu, hp, hfind, hcp]
  · intro hnone v h
    unfold attempt_login at h
    rw [if_neg (by simp [hu, hp]), hnone] at h
    exact absurd h (by simp)

/-- Witness for C8 at a concrete input. -/
theorem c8_authenticate_iff_witness :
    pystrip "alice" ≠ "" ∧ ("pw" : String) ≠ "" ∧
    ((∀ v, attempt_login [⟨"alice", hash_password 7 "pw", 0⟩] "alice" "pw" = .loggedIn v ↔
      (v = pystrip "alice" ∧
        ∃ doc, users_find_one [⟨"alice", hash_password 7 "pw", 0⟩] (pystrip "alice") =
            some doc ∧ check_password "pw" doc.password = true)) ∧
    (users_find_one [⟨"alice", hash_password 7 "pw", 0⟩] (pystrip "alice") = none →
      ∀ v, attempt_login [⟨"alice", hash_password 7 "pw", 0⟩] "alice" "pw" ≠ .loggedIn v)) :=
  ⟨by decide, by decide,
    c8_authenticate_iff [⟨"alice", hash_password 7 "pw", 0⟩] "alice" "pw"
      (by decide) (by decide)⟩

/-- C4: `apply_filters` leaves the original untouched and computes the
working image freshly from the unmodified original, applying the adjustments
in the spec's fixed order — grayscale (re-expanded to RGBA) if enabled, then
Gaussian blur when the radius exceeds ~0.01, then brightness and then
contrast when the factor deviates from 1.0 by more than ~0.001. -/
theorem c4_filter_order (st : EditorImages) (grayscale : Bool)
    (blur_val bright contrast : ℚ) :
    (apply_filters st grayscale blur_val bright contrast).current_original_image =
      st.current_original_image ∧
    (apply_filters st grayscale blur_val bright contrast).current_work_image =
      (match st.current_original_image with
       | none => st.current_work_image
       | some base => some (applyFiltersSpec base grayscale blur_val bright contrast)) := by
  cases h : st.current_original_image with
  | none => simp [apply_filters, h]
  | some base =>
      refine ⟨by simp [apply_filters, h], ?_⟩
      simp only [apply_filters, h]
      simp [apply_filters_pipeline, applyFiltersSpec, grayscaleStage, blurStage,
        brightnessStage, contrastStage]

/-- C5: with every filter at its neutral value — grayscale off, blur 0,
brightness 1.0, contrast 1.0 — the pipeline returns the base image unchanged
(each conditional stage is skipped, and `Image.copy()` is pixel-identical). -/
theorem c5_neutral_filters_identity (base : PILImage) :
    apply_filters_pipeline base false 0 1 1 = base := by
  unfold apply_filters_pipeline
  norm_num

/-- C10: whenever `load_board` finds the requested board, the canvas is
cleared before repopulation, so the resulting in-memory layout is exactly the
deserialization of the loaded board's stored layout — whatever entries were
on the canvas before (from a previously open board) do not survive. -/
theorem c10_load_board_clears (fs : ImageFS) (boards_col : List BoardDoc)
    (st : MoodBoardState) (board_id : Nat) (doc : BoardDoc)
    (hfind : boards_find_by_id boards_col board_id = some doc) :
    (load_board fs boards_col st board_id).board_items = deserialize fs doc.layout ∧
    (load_board fs boards_col st board_id).current_board = some doc.board_name := by
  unfold load_board
  rw [hfind]
  simp [clear_canvas]

/-- Witness for C10 at a concrete input: loading over a canvas holding a
leftover entry yields exactly the stored (empty) layout. -/
theorem c10_load_board_clears_witness :
    boards_find_by_id [⟨5, "a", "b", [], 0⟩] 5 = some ⟨5, "a", "b", [], 0⟩ ∧
    ((load_board (fun _ => none) [⟨5, "a", "b", [], 0⟩]
        ⟨some "old", [⟨"left.png", 1, 2, 3, 4⟩]⟩ 5).board_items =
      deserialize (fun _ => none) [] ∧
    (load_board (fun _ => none) [⟨5, "a", "b", [], 0⟩]
        ⟨some "old", [⟨"left.png", 1, 2, 3, 4⟩]⟩ 5).current_board = some "b") :=
  ⟨by decide,
    c10_load_board_clears (fun _ => none) [⟨5, "a", "b", [], 0⟩]
      ⟨some "old", [⟨"left.png", 1, 2, 3, 4⟩]⟩ 5 ⟨5, "a", "b", [], 0⟩ (by decide)⟩

lemma countP_eq_zero_filter {α : Type} (p : α → Bool) (l : List α)
    (h : l.countP p = 0) : l.filter p = [] := by
  rw [List.filter_eq_nil_iff]
  intro a ha
  exact List.countP_eq_zero.mp h a ha

lemma boards_update_one_upsert_filter (username board_name : String)
    (layout : List PlacedImage) (now fresh_id : Nat) :
    ∀ boards_col : List BoardDoc, board_count boards_col username board_name ≤ 1 →
      ((boards_update_one_upsert boards_col username board_name layout now fresh_id).filter
          (board_key username board_name)).map (fun d => (d.layout, d.saved_at)) =
        [(layout, now)] ∧
      board_count (boards_update_one_upsert boards_col username board_name layout now fresh_id)
          username board_name = 1 := by
  intro boards_col
  induction boards_col with
  | nil =>
      intro _
      simp [boards_update_one_upsert, board_count, board_key]
  | cons d rest ih =>
      intro hle
      have hle₀ : (d :: rest).countP (board_key username board_name) ≤ 1 := hle
      rw [List.countP_cons] at hle₀
      by_cases hd : board_key username board_name d = true
      · rw [if_pos hd] at hle₀
        have hrest : rest.countP (board_key username board_name) = 0 := by omega
        have hfilter : rest.filter (board_key username board_name) = [] :=
          countP_eq_zero_filter _ _ hrest
        unfold boards_update_one_upsert
        rw [if_pos hd]
        constructor
        · rw [List.filter_cons_of_pos (by simp [board_key]), hfilter]
          rfl
        · show (_ :: rest).countP _ = 1
          rw [List.countP_cons, if_pos (by simp [board_key]), hrest]
      · rw [if_neg hd] at hle₀
        have hle' : board_count rest username board_name ≤ 1 := by
          show rest.countP _ ≤ 1
          omega
        obtain ⟨ih₁, ih₂⟩ := ih hle'
        unfold boards_update_one_upsert
        rw [if_neg hd]
        constructor
        · rw [List.filter_cons_of_neg (by simp [hd])]
          exact ih₁
        · have ih₂' : (boards_update_one_upsert rest username board_name layout
              now fresh_id).countP (board_key username board_name) = 1 := ih₂
          show (_ :: _).countP _ = 1
          rw [List.countP_cons, if_neg hd, ih₂']

/-- C2: starting from a store holding at most one board record under the
`(owner, name)` upsert key, saving the board twice leaves exactly one record
for that pair, and that record's layout and timestamp are those of the second
save only. -/
theorem c2_save_board_upsert (boards_col : List BoardDoc) (username name : String)
    (items₁ items₂ : List BoardItem) (t₁ t₂ id₁ id₂ : Nat)
    (hone : board_count boards_col username name ≤ 1) :
    board_count ((save_board
        (save_board boards_col (some username) ⟨some name, items₁⟩ t₁ id₁).2
        (some username) ⟨some name, items₂⟩ t₂ id₂).2) username name = 1 ∧
    (((save_board
        (save_board boards_col (some username) ⟨some name, items₁⟩ t₁ id₁).2
        (some username) ⟨some name, items₂⟩ t₂ id₂).2.filter
          (board_key username name)).map (fun d => (d.layout, d.saved_at))) =
      [(serialize items₂, t₂)] := by
  have hs₁ : (save_board boards_col (some username) ⟨some name, items₁⟩ t₁ id₁).2 =
      boards_update_one_upsert boards_col username name (serialize items₁) t₁ id₁ := by
    simp [save_board]
  obtain ⟨h₁f, h₁c⟩ := boards_update_one_upsert_filter username name (serialize items₁)
    t₁ id₁ boards_col hone
  obtain ⟨h₂f, h₂c⟩ := boards_update_one_upsert_filter username name (serialize items₂)
    t₂ id₂ (boards_update_one_upsert boards_col username name (serialize items₁) t₁ id₁)
    (by rw [h₁c])
  constructor
  · rw [hs₁]
    simpa [save_board] using h₂c
  · rw [hs₁]
    simpa [save_board] using h₂f

/-- Witness for C2 at a concrete input. -/
theorem c2_save_board_upsert_witness :
    board_count [] "a" "b" ≤ 1 ∧
    (board_count ((save_board
        (save_board [] (some "a") ⟨some "b", []⟩ 1 10).2
        (some "a") ⟨some "b", [⟨"i.png", 2, 3, 4, 5⟩]⟩ 2 11).2) "a" "b" = 1 ∧
    (((save_board
        (save_board [] (some "a") ⟨some "b", []⟩ 1 10).2
        (some "a") ⟨some "b", [⟨"i.png", 2, 3, 4, 5⟩]⟩ 2 11).2.filter
          (board_key "a" "b")).map (fun d => (d.layout, d.saved_at))) =
      [(serialize [⟨"i.png", 2, 3, 4, 5⟩], 2)]) :=
  ⟨by decide,
    c2_save_board_upsert [] "a" "b" [] [⟨"i.png", 2, 3, 4, 5⟩] 1 2 10 11 (by decide)⟩

lemma countP_eraseP_eq_zero {α : Type} (p : α → Bool) :
    ∀ l : List α, l.countP p ≤ 1 → (l.eraseP p).countP p = 0 := by
  intro l
  induction l with
  | nil => simp
  | cons a t ih =>
      intro h
      by_cases ha : p a = true
      · rw [List.eraseP_cons_of_pos ha]
        rw [List.countP_cons, if_pos ha] at h
        omega
      · rw [List.eraseP_cons_of_neg ha]
        rw [List.countP_cons, if_neg ha] at h
        rw [List.countP_cons, if_neg ha]
        have := ih (by omega)
        omega

/-- C9: deleting a saved image removes its metadata record: for any store in
which the stored path identifies at most one record, the record removal does
not depend on whether the backing file could be removed (the `os.remove`
failure is swallowed), and no gallery listing taken afterwards — for any
owner and any filesystem state — contains a record with the deleted path. -/
theorem c9_delete_image (images_col : List ImageDoc) (fs : ImageFS) (path : String)
    (remove_ok : Bool)
    (hone : images_col.countP (fun d => d.saved_path == path) ≤ 1) :
    (gallery_do_delete images_col fs path remove_ok).1 =
      images_delete_one images_col path ∧
    (∀ username, ∀ fs₂ : ImageFS,
      ∀ d ∈ gallery_list (gallery_do_delete images_col fs path remove_ok).1 fs₂ username,
        d.saved_path ≠ path) := by
  refine ⟨rfl, ?_⟩
  intro username fs₂ d hd hdp
  have hmem : d ∈ images_delete_one images_col path := by
    have h₁ : d ∈ images_by_owner (images_delete_one images_col path) username :=
      (List.mem_filter.mp hd).1
    have h₂ : d ∈ (images_delete_one images_col path).filter
        (fun x => x.username == username) := List.mem_mergeSort.mp h₁
    exact (List.mem_filter.mp h₂).1
  have hzero : (images_delete_one images_col path).countP
      (fun d => d.saved_path == path) = 0 := countP_eraseP_eq_zero _ _ hone
  have : (fun x : ImageDoc => x.saved_path == path) d = true := by simp [hdp]
  have hpos : 0 < (images_delete_one images_col path).countP
      (fun d => d.saved_path == path) :=
    List.countP_pos_iff.mpr ⟨d, hmem, this⟩
  omega

/-- Witness for C9 at a concrete input. -/
theorem c9_delete_image_witness :
    ([⟨"a", "o.png", "p", ⟨false, 0, 1, 1⟩, 0⟩] :
        List ImageDoc).countP (fun d => d.saved_path == "p") ≤ 1 ∧
    ((gallery_do_delete [⟨"a", "o.png", "p", ⟨false, 0, 1, 1⟩, 0⟩]
        (fun _ => none) "p" false).1 =
      images_delete_one [⟨"a", "o.png", "p", ⟨false, 0, 1, 1⟩, 0⟩] "p" ∧
    (∀ username, ∀ fs₂ : ImageFS,
      ∀ d ∈ gallery_list (gallery_do_delete [⟨"a", "o.png", "p", ⟨false, 0, 1, 1⟩, 0⟩]
          (fun _ => none) "p" false).1 fs₂ username,
        d.saved_path ≠ "p")) :=
  ⟨by decide,
    c9_delete_image [⟨"a", "o.png", "p", ⟨false, 0, 1, 1⟩, 0⟩]
      (fun _ => none) "p" false (by decide)⟩

lemma ofDigs_decDigitsAux : ∀ fuel n, n ≤ fuel → ofDigs (decDigitsAux fuel n) = n := by
  intro fuel
  induction fuel with
  | zero =>
      intro n hn
      interval_cases n
      simp [decDigitsAux, ofDigs]
  | succ f ih =>
      intro n hn
      cases n with
      | zero => simp [decDigitsAux, ofDigs]
      | succ m =>
          have hdiv : (m + 1) / 10 ≤ f := by
            have h1 : (m + 1) / 10 < m + 1 := Nat.div_lt_self (Nat.succ_pos m) (by norm_num)
            omega
          show ofDigs ((m + 1) % 10 :: decDigitsAux f ((m + 1) / 10)) = m + 1
          rw [ofDigs, ih _ hdiv]
          exact Nat.mod_add_div (m + 1) 10

lemma decDigitsAux_length : ∀ fuel n w, n < 10 ^ w → (decDigitsAux fuel n).length ≤ w := by
  intro fuel
  induction fuel with
  | zero => intro n w _; simp [decDigitsAux]
  | succ f ih =>
      intro n w hn
      cases n with
      | zero => simp [decDigitsAux]
      | succ m =>
          cases w with
          | zero => simp at hn
          | succ v =>
              show ((m + 1) % 10 :: decDigitsAux f ((m + 1) / 10)).length ≤ v + 1
              rw [List.length_cons]
              have hlt : (m + 1) / 10 < 10 ^ v := by
                rw [Nat.div_lt_iff_lt_mul (by norm_num)]
                calc m + 1 < 10 ^ (v + 1) := hn
                _ = 10 ^ v * 10 := by ring
              have := ih ((m + 1) / 10) v hlt
              omega

lemma decDigitsAux_lt_ten : ∀ fuel n d, d ∈ decDigitsAux fuel n → d < 10 := by
  intro fuel
  induction fuel with
  | zero => intro n d hd; simp [decDigitsAux] at hd
  | succ f ih =>
      intro n d hd
      cases n with
      | zero => simp [decDigitsAux] at hd
      | succ m =>
          rw [show decDigitsAux (f + 1) (m + 1) =
            (m + 1) % 10 :: decDigitsAux f ((m + 1) / 10) from rfl] at hd
          rcases List.mem_cons.mp hd with h | h
          · rw [h]; exact Nat.mod_lt _ (by norm_num)
          · exact ih _ _ h

lemma ofDigs_append_zeros : ∀ (l : List Nat) (k : Nat),
    ofDigs (l ++ List.replicate k 0) = ofDigs l := by
  intro l
  induction l with
  | nil =>
      intro k
      induction k with
      | zero => rfl
      | succ j ihk =>
          have ihk' : ofDigs (List.replicate j 0) = 0 := by
            rw [List.nil_append] at ihk
            exact ihk
          rw [List.nil_append, List.replicate_succ]
          show 0 + 10 * ofDigs (List.replicate j 0) = 0
          rw [ihk']
  | cons d t ih =>
      intro k
      show ofDigs (d :: (t ++ List.replicate k 0)) = ofDigs (d :: t)
      rw [ofDigs, ofDigs, ih]

lemma ofDigs_zfillDigits (w n : Nat) : ofDigs (zfillDigits w n) = n := by
  unfold zfillDigits
  rw [ofDigs_append_zeros]
  exact ofDigs_decDigitsAux n n le_rfl

lemma zfillDigits_length (w n : Nat) (h : n < 10 ^ w) : (zfillDigits w n).length = w := by
  unfold zfillDigits
  have := decDigitsAux_length n n w h
  rw [List.length_append, List.length_replicate]
  unfold decDigits
  omega

lemma zfillDigits_lt_ten (w n : Nat) : ∀ d ∈ zfillDigits w n, d < 10 := by
  intro d hd
  unfold zfillDigits at hd
  rcases List.mem_append.mp hd with h | h
  · exact decDigitsAux_lt_ten _ _ _ h
  · have := List.eq_of_mem_replicate h
    omega

lemma digitChar_inj_lt : ∀ d₁ < 10, ∀ d₂ < 10, digitChar d₁ = digitChar d₂ → d₁ = d₂ := by
  decide

lemma map_digitChar_inj : ∀ l₁ l₂ : List Nat, (∀ d ∈ l₁, d < 10) → (∀ d ∈ l₂, d < 10) →
    l₁.map digitChar = l₂.map digitChar → l₁ = l₂ := by
  intro l₁
  induction l₁ with
  | nil =>
      intro l₂ _ _ h
      cases l₂ with
      | nil => rfl
      | cons b u => simp at h
  | cons a t ih =>
      intro l₂ h₁ h₂ h
      cases l₂ with
      | nil => simp at h
      | cons b u =>
          rw [List.map_cons, List.map_cons] at h
          obtain ⟨hab, htu⟩ := List.cons.inj h
          have hab' : a = b :=
            digitChar_inj_lt a (h₁ a (by simp)) b (h₂ b (by simp)) hab
          have htu' : t = u :=
            ih u (fun d hd => h₁ d (by simp [hd])) (fun d hd => h₂ d (by simp [hd])) htu
          rw [hab', htu']

lemma zeroPadded_inj (w n m : Nat) (h : zeroPadded w n = zeroPadded w m) : n = m := by
  unfold zeroPadded at h
  have hrev : (zfillDigits w n).reverse = (zfillDigits w m).reverse :=
    map_digitChar_inj _ _
      (fun d hd => zfillDigits_lt_ten w n d (List.mem_reverse.mp hd))
      (fun d hd => zfillDigits_lt_ten w m d (List.mem_reverse.mp hd)) h
  have hz : zfillDigits w n = zfillDigits w m := by
    have := congrArg List.reverse hrev
    simpa using this
  calc n = ofDigs (zfillDigits w n) := (ofDigs_zfillDigits w n).symm
  _ = ofDigs (zfillDigits w m) := by rw [hz]
  _ = m := ofDigs_zfillDigits w m

lemma zeroPadded_length (w n : Nat) (h : n < 10 ^ w) : (zeroPadded w n).length = w := by
  unfold zeroPadded
  rw [List.length_map, List.length_reverse]
  exact zfillDigits_length w n h

lemma timestamp_chars_inj (t₁ t₂ : DateTimeUTC)
    (h₁ : t₁.wellFormed) (h₂ : t₂.wellFormed)
    (h : timestamp_chars t₁ = timestamp_chars t₂) : t₁ = t₂ := by
  obtain ⟨hy₁, hmo₁, hd₁, hh₁, hmi₁, hs₁, hus₁⟩ := h₁
  obtain ⟨hy₂, hmo₂, hd₂, hh₂, hmi₂, hs₂, hus₂⟩ := h₂
  unfold timestamp_chars at h
  rw [List.append_assoc, List.append_assoc, List.append_assoc, List.append_assoc,
    List.append_assoc, List.append_assoc, List.append_assoc, List.append_assoc,
    List.append_assoc, List.append_assoc, List.append_assoc, List.append_assoc] at h
  obtain ⟨ey, h⟩ := List.append_inj h
    (by rw [zeroPadded_length 4 _ (by exact_mod_cast hy₁),
      zeroPadded_length 4 _ (by exact_mod_cast hy₂)])
  obtain ⟨emo, h⟩ := List.append_inj h
    (by rw [zeroPadded_length 2 _ (by exact_mod_cast hmo₁),
      zeroPadded_length 2 _ (by exact_mod_cast hmo₂)])
  obtain ⟨ed, h⟩ := List.append_inj h
    (by rw [zeroPadded_length 2 _ (by exact_mod_cast hd₁),
      zeroPadded_length 2 _ (by exact_mod_cast hd₂)])
  obtain ⟨_, h⟩ := List.append_inj h rfl
  obtain ⟨eh, h⟩ := List.append_inj h
    (by rw [zeroPadded_length 2 _ (by exact_mod_cast hh₁),
      zeroPadded_length 2 _ (by exact_mod_cast hh₂)])
  obtain ⟨emi, h⟩ := List.append_inj h
    (by rw [zeroPadded_length 2 _ (by exact_mod_cast hmi₁),
      zeroPadded_length 2 _ (by exact_mod_cast hmi₂)])
  obtain ⟨es, eus⟩ := List.append_inj h
    (by rw [zeroPadded_length 2 _ (by exact_mod_cast hs₁),
      zeroPadded_length 2 _ (by exact_mod_cast hs₂)])
  cases t₁
  cases t₂
  simp only at ey emo ed eh emi es eus ⊢
  rw [zeroPadded_inj _ _ _ ey, zeroPadded_inj _ _ _ emo, zeroPadded_inj _ _ _ ed,
    zeroPadded_inj _ _ _ eh, zeroPadded_inj _ _ _ emi, zeroPadded_inj _ _ _ es,
    zeroPadded_inj _ _ _ eus]

lemma timestamp_chars_length (t : DateTimeUTC) (h : t.wellFormed) :
    (timestamp_chars t).length = 21 := by
  obtain ⟨hy, hmo, hd, hh, hmi, hs, hus⟩ := h
  unfold timestamp_chars
  simp only [List.length_append, List.length_cons, List.length_nil]
  rw [zeroPadded_length 4 _ (by exact_mod_cast hy),
    zeroPadded_length 2 _ (by exact_mod_cast hmo),
    zeroPadded_length 2 _ (by exact_mod_cast hd),
    zeroPadded_length 2 _ (by exact_mod_cast hh),
    zeroPadded_length 2 _ (by exact_mod_cast hmi),
    zeroPadded_length 2 _ (by exact_mod_cast hs),
    zeroPadded_length 6 _ (by exact_mod_cast hus)]

/-- C7: a stored image path is
`uploads/{user}/{UTC microsecond timestamp}_{base-name-without-extension}.png`
(the extension is always the lossless `.png`), and two saves by the same user
whose `datetime.utcnow()` readings differ — as successive saves within one
process observe on a microsecond clock — never produce the same path,
whatever the original filenames were. -/
theorem c7_saved_path_unique (t₁ t₂ : DateTimeUTC) (username orig₁ orig₂ : String)
    (h₁ : t₁.wellFormed) (h₂ : t₂.wellFormed) (hne : t₁ ≠ t₂) :
    save_image_file_path t₁ username orig₁ ≠ save_image_file_path t₂ username orig₂ ∧
    save_image_file_path t₁ username orig₁ =
      "uploads" ++ "/" ++ username ++ "/" ++
        (strftime_timestamp t₁ ++ "_" ++ splitext_root (os_path_basename orig₁) ++ ".png") := by
  constructor
  · intro h
    apply hne
    have hd := congrArg String.data h
    simp only [save_image_file_path, save_image_out_name, strftime_timestamp,
      string_data_append, List.append_assoc] at hd
    have hd₁ := List.append_cancel_left hd
    have hd₂ := List.append_cancel_left hd₁
    have hd₃ := List.append_cancel_left hd₂
    have hd₄ := List.append_cancel_left hd₃
    obtain ⟨ets, _⟩ := List.append_inj hd₄
      (by rw [timestamp_chars_length t₁ h₁, timestamp_chars_length t₂ h₂])
    exact timestamp_chars_inj t₁ t₂ h₁ h₂ ets
  · rfl

/-- Witness for C7 at two concrete timestamps one microsecond apart. -/
theorem c7_saved_path_unique_witness :
    (DateTimeUTC.mk 2024 1 2 3 4 5 6).wellFormed ∧
    (DateTimeUTC.mk 2024 1 2 3 4 5 7).wellFormed ∧
    DateTimeUTC.mk 2024 1 2 3 4 5 6 ≠ DateTimeUTC.mk 2024 1 2 3 4 5 7 ∧
    (save_image_file_path ⟨2024, 1, 2, 3, 4, 5, 6⟩ "alice" "photo.jpg" ≠
      save_image_file_path ⟨2024, 1, 2, 3, 4, 5, 7⟩ "alice" "photo.jpg" ∧
    save_image_file_path ⟨2024, 1, 2, 3, 4, 5, 6⟩ "alice" "photo.jpg" =
      "uploads" ++ "/" ++ "alice" ++ "/" ++
        (strftime_timestamp ⟨2024, 1, 2, 3, 4, 5, 6⟩ ++ "_" ++
          splitext_root (os_path_basename "photo.jpg") ++ ".png")) :=
  ⟨by decide, by decide, by decide,
    c7_saved_path_unique ⟨2024, 1, 2, 3, 4, 5, 6⟩ ⟨2024, 1, 2, 3, 4, 5, 7⟩
      "alice" "photo.jpg" "photo.jpg" (by decide) (by decide) (by decide)⟩

/-- C3: the round-trip claim is FALSE as stated: the canvas entry
`{path: "p.png", x: 0, y: 0, w: 1, h: 300}` — exactly what the canvas holds
after adding a 3×600-pixel image (thumbnailed into a 300×300 box) — refers
to an existing file, yet deserializing its serialization re-thumbnails the
3×600 file into a 1×300 box, which PIL sizes to 1×200: the `w`/`h` fields
are not reproduced. -/
theorem c3_roundtrip_counterexample :
    (∀ m ∈ ([⟨"p.png", 0, 0, 1, 300⟩] : List BoardItem),
      (((fun p => if p == "p.png" then some (3, 600) else none) : ImageFS) m.path).isSome
        = true) ∧
    deserialize (fun p => if p == "p.png" then some (3, 600) else none)
        (serialize [⟨"p.png", 0, 0, 1, 300⟩]) ≠ [⟨"p.png", 0, 0, 1, 300⟩] := by
  constructor
  · decide
  · have hthumb : thumb_size 3 600 1 300 = (1, 200) := by
      norm_num [thumb_size, round_aspect]
      decide
    have hds : deserialize (fun p => if p == "p.png" then some (3, 600) else none)
        (serialize [⟨"p.png", 0, 0, 1, 300⟩]) = [⟨"p.png", 0, 0, 1, 200⟩] := by
      simp [serialize, deserialize, open_thumb, hthumb]
    rw [hds]
    decide

/-- C3 (amended): deserializing the serialized layout keeps the entries in
order with their `path`, `x`, `y` fields intact whenever every entry's file
still exists and opens; the `w`/`h` fields are recomputed by re-thumbnailing
the file into the stored `(w, h)` box, so the round-trip reproduces the
entries exactly when that recomputation returns the stored size (as it does
when the stored size is the thumbnail size the file produced before). -/
theorem c3_roundtrip_amended (fs : ImageFS) (items : List BoardItem)
    (hex : ∀ m ∈ items, m.path ≠ "" ∧ (open_thumb fs m.path m.w m.h).isSome = true) :
    ((deserialize fs (serialize items)).map fun m => (m.path, m.x, m.y)) =
      (items.map fun m => (m.path, m.x, m.y)) ∧
    ((∀ m ∈ items, open_thumb fs m.path m.w m.h = some (m.w.toNat, m.h.toNat) ∧
        0 ≤ m.w ∧ 0 ≤ m.h) →
      deserialize fs (serialize items) = items) := by
  revert hex
  induction items with
  | nil => exact fun _ => ⟨rfl, fun _ => rfl⟩
  | cons m rest ih =>
      intro hex
      obtain ⟨hpath, hsome⟩ := hex m (List.mem_cons_self m rest)
      have hexr : ∀ x ∈ rest, x.path ≠ "" ∧ (open_thumb fs x.path x.w x.h).isSome = true :=
        fun x hx => hex x (List.mem_cons_of_mem m hx)
      obtain ⟨ih₁, ih₂⟩ := ih hexr
      obtain ⟨⟨w', h'⟩, hwh⟩ := Option.isSome_iff_exists.mp hsome
      have hdes : deserialize fs (serialize (m :: rest)) =
          ⟨m.path, m.x, m.y, (w' : Int), (h' : Int)⟩ :: deserialize fs (serialize rest) := by
        simp only [serialize, List.map_cons, deserialize, List.filterMap_cons, hwh,
          if_neg hpath]
      refine ⟨?_, ?_⟩
      · rw [hdes]
        simp only [List.map_cons]
        rw [show (deserialize fs (serialize rest)).map (fun m => (m.path, m.x, m.y)) =
          rest.map (fun m => (m.path, m.x, m.y)) from ih₁]
      · intro hfix
        obtain ⟨hopen, hw0, hh0⟩ := hfix m (List.mem_cons_self m rest)
        rw [hwh] at hopen
        obtain ⟨hw', hh'⟩ := Prod.mk.injEq _ _ _ _ ▸ Option.some.inj hopen
        have hrest := ih₂ (fun x hx => hfix x (List.mem_cons_of_mem m hx))
        rw [hdes, hrest]
        have hweq : (w' : Int) = m.w := by
          rw [hw']
          exact Int.toNat_of_nonneg hw0
        have hheq : (h' : Int) = m.h := by
          rw [hh']
          exact Int.toNat_of_nonneg hh0
        rw [hweq, hheq]

/-- Witness for the amended C3: a 3×2 file whose stored box is its own
thumbnail size round-trips exactly. -/
theorem c3_roundtrip_amended_witness :
    (∀ m ∈ ([⟨"a.png", 5, 6, 3, 2⟩] : List BoardItem),
      m.path ≠ "" ∧
        (open_thumb ((fun p => if p == "a.png" then some (3, 2) else none) : ImageFS)
          m.path m.w m.h).isSome = true) ∧
    (((deserialize ((fun p => if p == "a.png" then some (3, 2) else none) : ImageFS)
        (serialize [⟨"a.png", 5, 6, 3, 2⟩])).map fun m => (m.path, m.x, m.y)) =
      ([⟨"a.png", 5, 6, 3, 2⟩] : List BoardItem).map (fun m => (m.path, m.x, m.y)) ∧
    ((∀ m ∈ ([⟨"a.png", 5, 6, 3, 2⟩] : List BoardItem),
        open_thumb ((fun p => if p == "a.png" then some (3, 2) else none) : ImageFS)
            m.path m.w m.h = some (m.w.toNat, m.h.toNat) ∧ 0 ≤ m.w ∧ 0 ≤ m.h) →
      deserialize ((fun p => if p == "a.png" then some (3, 2) else none) : ImageFS)
          (serialize [⟨"a.png", 5, 6, 3, 2⟩]) = [⟨"a.png", 5, 6, 3, 2⟩])) :=
  ⟨by decide,
    c3_roundtrip_amended ((fun p => if p == "a.png" then some (3, 2) else none) : ImageFS)
      [⟨"a.png", 5, 6, 3, 2⟩] (by decide)⟩
